import Mathlib

/-
Verification of the Gocommunity repository's router / middleware spec.

The repository's demo handlers (BasicAuth, BookShow, GlobalOPTIONSHandler,
PanicHandler, ...) are embedded directly from the Go source.  The routing
trie and the middleware chain executor live in the third-party frameworks
the demos call into; those parts are modelled from the spec (each such
definition's doc comment says so).
-/

namespace GoCommunity

/-- An HTTP response as observable through the response writer: a status
code, a header list (in the order the headers were set) and a body. -/
structure Response where
  status : Nat := 200
  headers : List (String × String) := []
  body : String := ""
  deriving DecidableEq

/-- The zero response: Go's implicit 200 with no headers and empty body. -/
def Response.empty : Response := {}

/-- Association-list lookup keyed by strings (first binding wins). -/
def lookupA {β : Type} : List (String × β) → String → Option β
  | [], _ => none
  | (k', v) :: t, k => if k' = k then some v else lookupA t k

/-- Association-list update: replace the first binding of the key, or
append a fresh binding at the end. -/
def updateA {β : Type} : List (String × β) → String → β → List (String × β)
  | [], k, v => [(k, v)]
  | (k', v') :: t, k, v => if k' = k then (k, v) :: t else (k', v') :: updateA t k v

/-- Modelled from the spec: a pattern segment — Static literal text, a
Named single-segment parameter, or a terminal Wildcard catch-all.  The
framework code (julienschmidt/httprouter) that realises this is not part
of the repository's sources. -/
inductive Segment where
  | static (lit : String)
  | named (name : String)
  | wildcard (name : String)
  deriving DecidableEq

/-- Modelled from the spec: registration-time conflict errors — two
different parameter names at the same trie node, or a Wildcard segment
that is not the final segment of its pattern. -/
inductive ConflictError where
  | namedConflict (existing given : String)
  | wildcardConflict (existing given : String)
  | wildcardNotTerminal
  deriving DecidableEq

/-- Modelled from the spec: a trie node of the path matcher.  Each node
holds a mapping from literal segment text to static children, at most one
Named child, at most one terminal Wildcard acceptor, and an optional
handler registered at this node. -/
inductive Node (α : Type) where
  | mk (statics : List (String × Node α)) (namedChild : Option (String × Node α))
      (wild : Option (String × α)) (handler : Option α)

/-- The static children of a trie node. -/
def Node.statics {α : Type} : Node α → List (String × Node α)
  | .mk s _ _ _ => s

/-- The Named child of a trie node, if any. -/
def Node.namedChild {α : Type} : Node α → Option (String × Node α)
  | .mk _ n _ _ => n

/-- The Wildcard acceptor of a trie node, if any. -/
def Node.wild {α : Type} : Node α → Option (String × α)
  | .mk _ _ w _ => w

/-- The handler registered exactly at this trie node, if any. -/
def Node.handler {α : Type} : Node α → Option α
  | .mk _ _ _ h => h

/-- The empty trie node. -/
def Node.empty {α : Type} : Node α := .mk [] none none none

/-- Modelled from the spec: insertion of a decomposed pattern into the
trie.  Fails with a ConflictError when a Named segment meets an existing
Named child of a different name, when a Wildcard meets an existing
Wildcard of a different name, or when a Wildcard is not terminal. -/
def insertNode {α : Type} : Node α → List Segment → α → Except ConflictError (Node α)
  | .mk ss nc w _, [], h => .ok (.mk ss nc w (some h))
  | n, .static s :: rest, h =>
    (insertNode ((lookupA n.statics s).getD Node.empty) rest h).map fun c =>
      .mk (updateA n.statics s c) n.namedChild n.wild n.handler
  | n, .named a :: rest, h =>
    match n.namedChild with
    | none => (insertNode Node.empty rest h).map fun c =>
        .mk n.statics (some (a, c)) n.wild n.handler
    | some (b, child) =>
      if a = b then
        (insertNode child rest h).map fun c => .mk n.statics (some (b, c)) n.wild n.handler
      else .error (.namedConflict b a)
  | n, [.wildcard w], h =>
    match n.wild with
    | none => .ok (.mk n.statics n.namedChild (some (w, h)) n.handler)
    | some (w', _) =>
      if w = w' then .ok (.mk n.statics n.namedChild (some (w', h)) n.handler)
      else .error (.wildcardConflict w' w)
  | _, .wildcard _ :: _ :: _, _ => .error .wildcardNotTerminal

/-- Join path segments back into a slash-separated string (the value a
Wildcard captures). -/
def joinSlash : List String → String
  | [] => ""
  | [s] => s
  | s :: rest => s ++ "/" ++ joinSlash rest

/-- Modelled from the spec: single-pass trie matching.  At each node a
static child is preferred over the Named child, and the Named child over
the Wildcard acceptor; only one Named/Wildcard child exists per node, so
the walk is deterministic and commits without backtracking.  Returns the
handler and the captured parameters in pattern order. -/
def matchNode {α : Type} : Node α → List String → Option (α × List (String × String))
  | n, [] =>
    match n.handler with
    | some h => some (h, [])
    | none =>
      match n.wild with
      | some (w, h) => some (h, [(w, "")])
      | none => none
  | n, s :: rest =>
    match lookupA n.statics s with
    | some child => matchNode child rest
    | none =>
      match n.namedChild with
      | some (a, child) => (matchNode child rest).map fun r => (r.1, (a, s) :: r.2)
      | none =>
        match n.wild with
        | some (w, h) => some (h, [(w, joinSlash (s :: rest))])
        | none => none

/-- Modelled from the spec: the router keeps one trie per HTTP method. -/
abbrev Router (α : Type) := List (String × Node α)

/-- The empty router: no method has any route. -/
def Router.empty {α : Type} : Router α := []

/-- Modelled from the spec: `register(method, pattern, handler)` inserts
into the method's trie, surfacing any ConflictError. -/
def Router.register {α : Type} (r : Router α) (m : String) (pat : List Segment) (h : α) :
    Except ConflictError (Router α) :=
  (insertNode ((lookupA r m).getD Node.empty) pat h).map fun t => updateA r m t

/-- Modelled from the spec: `match(method, path)` resolves a path against
the method's trie; `none` is the NotFound outcome. -/
def Router.find {α : Type} (r : Router α) (m : String) (path : List String) :
    Option (α × List (String × String)) :=
  match lookupA r m with
  | some t => matchNode t path
  | none => none

/-- Parse one textual pattern segment: `:x` is Named, `*x` is Wildcard,
anything else is Static. -/
def parseSeg (s : String) : Segment :=
  match s.data with
  | ':' :: rest => .named (String.mk rest)
  | '*' :: rest => .wildcard (String.mk rest)
  | _ => .static s

/-- Cut a character list at every slash, accumulating the current
segment's characters in reverse. -/
def splitChars : List Char → List Char → List String
  | [], acc => [String.mk acc.reverse]
  | c :: cs, acc =>
    if c = '/' then String.mk acc.reverse :: splitChars cs []
    else splitChars cs (c :: acc)

/-- Split a path into its segments: drop the leading slash, then cut at
every slash (so trailing slashes yield a final empty segment). -/
def splitPath (p : String) : List String :=
  match p.data with
  | '/' :: rest => splitChars rest []
  | l => splitChars l []

/-- Parse a registration pattern string into its segments. -/
def parsePattern (p : String) : List Segment := (splitPath p).map parseSeg

/-- The route table the demo's `main` registers (handlers stand for the
Go functions by name). -/
def demoRouterE : Except ConflictError (Router String) := do
  let r := Router.empty
  let r ← r.register "GET" (parsePattern "/") "Index"
  let r ← r.register "GET" (parsePattern "/hello") "Hello"
  let r ← r.register "GET" (parsePattern "/hello/:name") "HelloWithName"
  let r ← r.register "GET" (parsePattern "/src/:filename") "FileInfo"
  let r ← r.register "GET" (parsePattern "/files/*filepath") "FileServer"
  let r ← r.register "GET" (parsePattern "/static/*filepath") "ServeStaticFiles"
  let r ← r.register "GET" (parsePattern "/std/:name") "StandardHello"
  let r ← r.register "GET" (parsePattern "/books") "BookIndex"
  let r ← r.register "GET" (parsePattern "/books/:isdn") "BookShow"
  let r ← r.register "GET" (parsePattern "/public") "PublicAnon"
  let r ← r.register "GET" (parsePattern "/protected") "ProtectedContent"
  let r ← r.register "GET" (parsePattern "/panic") "PanicDemo"
  return r

/-- The demo route table, with registration known to succeed. -/
def demoRouter : Router String :=
  match demoRouterE with
  | .ok r => r
  | .error _ => Router.empty

/-- Does a registration attempt end in a ConflictError? -/
def isConflict {α : Type} : Except ConflictError α → Bool
  | .error _ => true
  | .ok _ => false

/-- A pattern with no Wildcard segment. -/
def noWild : List Segment → Bool
  | [] => true
  | .wildcard _ :: _ => false
  | _ :: rest => noWild rest

/-- A path has exactly the same segment count as a wildcard-free pattern
and agrees with it on every Static segment. -/
def segCompat : List Segment → List String → Bool
  | [], [] => true
  | .static s :: p, x :: xs => if s = x then segCompat p xs else false
  | .named _ :: p, _ :: xs => segCompat p xs
  | _, _ => false

/-- The parameters a wildcard-free pattern captures from a compatible
path: the literal path substring at each Named position, in pattern
order. -/
def capturedParams : List Segment → List String → List (String × String)
  | .static _ :: p, _ :: xs => capturedParams p xs
  | .named a :: p, x :: xs => (a, x) :: capturedParams p xs
  | _, _ => []

/-- Modelled from the spec: the request-scoped context threaded through
the middleware chain — the response written so far, the generic
key/value store, and (for observability in proofs) the trace of the
handlers entered so far. -/
structure Ctx where
  response : Response := {}
  store : List (String × String) := []
  trace : List String := []
  deriving DecidableEq

/-- Modelled from the spec: the three-state outcome of one middleware
invocation — Proceed (with the updated context and the work to do after
the rest of the chain returns), Abort (the context written so far
becomes final), or Fault (an unrecoverable failure with its diagnostic
payload). -/
inductive MWResult where
  | proceed (c : Ctx) (post : Ctx → Ctx)
  | abort (c : Ctx)
  | fault (payload : String)

/-- A middleware: receives the request context, yields an MWResult. -/
abbrev Middleware := Ctx → MWResult

/-- The outcome of a terminal handler: a final context or a fault. -/
inductive HResult where
  | done (c : Ctx)
  | fault (payload : String)

/-- A terminal handler. -/
abbrev Handler := Ctx → HResult

/-- The outcome of executing a whole chain. -/
inductive Exec where
  | ok (c : Ctx)
  | aborted (c : Ctx)
  | fault (payload : String)

/-- Did the chain run to completion (no abort, no fault)? -/
def Exec.isOk : Exec → Bool
  | .ok _ => true
  | _ => false

/-- The trace of the context an execution ended in (empty on a fault,
where no final context exists). -/
def Exec.traceOf : Exec → List String
  | .ok c => c.trace
  | .aborted c => c.trace
  | .fault _ => []

/-- Modelled from the spec: the middleware chain executor.  Runs the
middlewares in order; a Proceed continues into the rest of the chain and
runs the middleware's after-proceed work on the way back; an Abort makes
the aborting middleware's context final at once (no later middleware, no
terminal handler, and no after-proceed work of already-entered
middleware runs); a Fault halts forward progress immediately. -/
def execute : List Middleware → Handler → Ctx → Exec
  | [], h, c =>
    match h c with
    | .done c' => .ok c'
    | .fault p => .fault p
  | m :: rest, h, c =>
    match m c with
    | .abort c' => .aborted c'
    | .fault p => .fault p
    | .proceed c' post =>
      match execute rest h c' with
      | .ok c'' => .ok (post c'')
      | .aborted c'' => .aborted c''
      | .fault p => .fault p

/-- Modelled from the spec: the Recovery Layer.  Wraps chain execution;
a Fault is converted into exactly one invocation of the recovery handler
on the failure's payload.  Returns the final response together with the
number of recovery-handler invocations. -/
def runRecovered (recovery : String → Response) (chain : List Middleware) (h : Handler)
    (c : Ctx) : Response × Nat :=
  match execute chain h c with
  | .ok c' => (c'.response, 0)
  | .aborted c' => (c'.response, 0)
  | .fault p => (recovery p, 1)

/-- A labelled middleware shape: a label (recorded in the trace on
entry), work done before proceeding, and work done after the rest of the
chain returns. -/
structure LabelledMW where
  label : String
  pre : Response → Response
  post : Response → Response

/-- The labels of a list of labelled middlewares, in order. -/
def labelsOf (L : List LabelledMW) : List String := L.map LabelledMW.label

/-- The before-proceed work of a list of labelled middlewares, applied
in order. -/
def applyPres (L : List LabelledMW) (r : Response) : Response :=
  L.foldl (fun r m => m.pre r) r

/-- A proceeding middleware: records its label, does its pre-work,
proceeds, and does its post-work when the chain returns. -/
def mkProceed (m : LabelledMW) : Middleware :=
  fun c => .proceed { c with trace := c.trace ++ [m.label], response := m.pre c.response }
    (fun c' => { c' with response := m.post c'.response })

/-- An aborting middleware: records its label, writes its response, and
aborts without proceeding. -/
def mkAbort (label : String) (f : Response → Response) : Middleware :=
  fun c => .abort { c with trace := c.trace ++ [label], response := f c.response }

/-- A middleware that raises an unrecoverable failure. -/
def mkFaultMW (payload : String) : Middleware := fun _ => .fault payload

/-- A terminal handler: records its label and writes its response. -/
def mkHandler (label : String) (f : Response → Response) : Handler :=
  fun c => .done { c with trace := c.trace ++ [label], response := f c.response }

/-- A terminal handler that raises an unrecoverable failure, like the
demo's PanicDemo. -/
def mkFaultHandler (payload : String) : Handler := fun _ => .fault payload

/-- The demo's PanicHandler (source part_000): writes a 500 status and
echoes the recovered panic value into the body. -/
def PanicHandler (err : String) : Response :=
  { status := 500, headers := [], body := "Recovered from panic: " ++ err }

/-- A request as the dispatch layer sees it: method, path and headers. -/
structure HRequest where
  method : String
  path : String
  headers : List (String × String)
  deriving DecidableEq

/-- Go's `Header.Get`: the first value of the key, or the empty string. -/
def headerGet (hs : List (String × String)) (k : String) : String :=
  (lookupA hs k).getD ""

/-- The demo's GlobalOPTIONSHandler (source part_000): on a preflight
request (an `Access-Control-Request-Method` header is present) set the
CORS allow headers; in every case answer 204 No Content with an empty
body. -/
def GlobalOPTIONSHandler (r : HRequest) : Response :=
  let hs :=
    if headerGet r.headers "Access-Control-Request-Method" = "" then []
    else
      [("Access-Control-Allow-Methods", "GET, POST, PUT, DELETE, OPTIONS"),
       ("Access-Control-Allow-Origin", "*"),
       ("Access-Control-Allow-Headers", "Content-Type, Authorization")]
  { status := 204, headers := hs, body := "" }

/-- The possible outcomes of router dispatch: the global OPTIONS handler
answered (no route handler runs), a route matched (its handler and
captured parameters), or nothing matched. -/
inductive DispatchOutcome (α : Type) where
  | globalOptions (resp : Response)
  | matched (h : α) (params : List (String × String))
  | notFound

/-- Modelled from the spec: per-request dispatch.  If the method is
OPTIONS, a global OPTIONS handler is configured, and the path has at
least one registered route under any method, the global OPTIONS handler
answers directly, bypassing normal matching; otherwise the path matcher
decides. -/
def hasAnyRoute {α : Type} (r : Router α) (path : List String) : Bool :=
  r.any fun mt => (matchNode mt.2 path).isSome

/-- Modelled from the spec: dispatch one request against the route table
and the optional global OPTIONS handler. -/
def dispatch {α : Type} (r : Router α) (gopts : Option (HRequest → Response))
    (req : HRequest) : DispatchOutcome α :=
  let normal :=
    match r.find req.method (splitPath req.path) with
    | some (h, ps) => DispatchOutcome.matched h ps
    | none => DispatchOutcome.notFound
  match gopts with
  | some g =>
    if req.method = "OPTIONS" ∧ hasAnyRoute r (splitPath req.path) = true then
      .globalOptions (g req)
    else normal
  | none => normal

/-- A request as the BasicAuth wrapper sees it: the parsed result of
Go's `r.BasicAuth()` — the presented user/password pair, when basic-auth
credentials are present. -/
structure ARequest where
  basicAuth : Option (String × String)
  deriving DecidableEq

/-- An httprouter-style handler: request and route parameters in, the
written response out. -/
abbrev Handle := ARequest → List (String × String) → Response

/-- The response the BasicAuth wrapper writes on failed authentication
(source part_000): the `WWW-Authenticate` challenge followed by Go's
`http.Error` with status 401 Unauthorized. -/
def basicAuthUnauthorized : Response :=
  { status := 401,
    headers := [("WWW-Authenticate", "Basic realm=Restricted"),
                ("Content-Type", "text/plain; charset=utf-8"),
                ("X-Content-Type-Options", "nosniff")],
    body := "Unauthorized\n" }

/-- The demo's BasicAuth wrapper (source part_000): call the wrapped
handler exactly when credentials are present and both the user and the
password equal the required values; otherwise answer 401 with the
challenge header. -/
def BasicAuth (h : Handle) (requiredUser requiredPassword : String) : Handle :=
  fun r ps =>
    match r.basicAuth with
    | some (user, password) =>
      if user = requiredUser ∧ password = requiredPassword then h r ps
      else basicAuthUnauthorized
    | none => basicAuthUnauthorized

/-- The presented credentials authenticate against the required pair. -/
def authOk (r : ARequest) (requiredUser requiredPassword : String) : Prop :=
  ∃ u p, r.basicAuth = some (u, p) ∧ u = requiredUser ∧ p = requiredPassword

/-- A book record (source part_000). -/
structure Book where
  ISDN : String
  Title : String
  Author : String
  Pages : Nat
  deriving DecidableEq

/-- The bookstore map as initialised by the demo's `main`. -/
def bookstore : List (String × Book) :=
  [("123", ⟨"123", "Silence of the Lambs", "Thomas Harris", 367⟩),
   ("124", ⟨"124", "To Kill a Mocking Bird", "Harper Lee", 320⟩)]

/-- Go's `fmt.Fprintf(w, "%+v", book)` on a `*Book` pointer: the `+`
flag prints each struct field as name:value, and the pointer prints with
a leading ampersand. -/
def renderBook (b : Book) : String :=
  "&\x7bISDN:" ++ b.ISDN ++ " Title:" ++ b.Title ++ " Author:" ++ b.Author
    ++ " Pages:" ++ toString b.Pages ++ "\x7d"

/-- The body BookShow writes when the book is missing. -/
def bookNotFoundBody : String := "\x7b\"error\": \"Book not found\"\x7d"

/-- The demo's BookShow handler (source part_000): set the JSON
content type; on a missing isdn answer 404 with the error body, else
write the stored book.  The bookstore map is read, never written, so it
is returned unchanged alongside the response. -/
def BookShow (store : List (String × Book)) (isdn : String) :
    Response × List (String × Book) :=
  let ct := ("Content-Type", "application/json")
  match lookupA store isdn with
  | none => ({ status := 404, headers := [ct], body := bookNotFoundBody }, store)
  | some b => ({ status := 200, headers := [ct], body := renderBook b }, store)

lemma execute_proceeds (L : List LabelledMW) (hl : String) (hf : Response → Response) :
    ∀ c : Ctx, ∃ c', execute (L.map mkProceed) (mkHandler hl hf) c = .ok c' ∧
      c'.trace = c.trace ++ (labelsOf L ++ [hl]) := by
  induction L with
  | nil =>
    intro c
    refine ⟨_, rfl, ?_⟩
    simp [mkHandler, labelsOf]
  | cons m L ih =>
    intro c
    obtain ⟨c', hc', ht⟩ := ih { c with trace := c.trace ++ [m.label], response := m.pre c.response }
    refine ⟨{ c' with response := m.post c'.response }, ?_, ?_⟩
    · simp only [List.map_cons, execute, mkProceed]
      rw [hc']
    · simpa [labelsOf] using ht

lemma execute_abort (A : List LabelledMW) (b : String) (fb : Response → Response)
    (rest : List Middleware) (h : Handler) :
    ∀ c : Ctx, execute (A.map mkProceed ++ mkAbort b fb :: rest) h c =
      .aborted { c with trace := c.trace ++ (labelsOf A ++ [b]),
                        response := fb (applyPres A c.response) } := by
  induction A with
  | nil =>
    intro c
    simp [execute, mkAbort, labelsOf, applyPres]
  | cons m A ih =>
    intro c
    simp only [List.map_cons, List.cons_append, execute, mkProceed, List.append_eq]
    rw [ih { c with trace := c.trace ++ [m.label], response := m.pre c.response }]
    simp [labelsOf, applyPres]

lemma execute_fault_handler (L : List LabelledMW) (p : String) :
    ∀ c : Ctx, execute (L.map mkProceed) (mkFaultHandler p) c = .fault p := by
  induction L with
  | nil => intro c; rfl
  | cons m L ih =>
    intro c
    simp only [List.map_cons, execute, mkProceed]
    rw [ih { c with trace := c.trace ++ [m.label], response := m.pre c.response }]

lemma execute_fault_mw (A : List LabelledMW) (p : String) (rest : List Middleware) (h : Handler) :
    ∀ c : Ctx, execute (A.map mkProceed ++ mkFaultMW p :: rest) h c = .fault p := by
  induction A with
  | nil => intro c; rfl
  | cons m A ih =>
    intro c
    simp only [List.map_cons, List.cons_append, execute, mkProceed, List.append_eq]
    rw [ih { c with trace := c.trace ++ [m.label], response := m.pre c.response }]

/-- C1: with global middleware A, group middleware B, route middleware C
and terminal handler H, a request in which no middleware aborts or
faults runs the chain to completion, the executed sequence is exactly
the A-labels, then the B-labels, then the C-labels, then H — i.e.
registration order — and every label occurs in the trace exactly as
often as it was registered (so each middleware runs at most once per
request). -/
theorem chain_executes_in_registration_order
    (A B C : List LabelledMW) (hl : String) (hf : Response → Response) (c : Ctx) :
    Exec.isOk (execute ((A ++ B ++ C).map mkProceed) (mkHandler hl hf) c) = true ∧
    Exec.traceOf (execute ((A ++ B ++ C).map mkProceed) (mkHandler hl hf) c)
      = c.trace ++ (labelsOf A ++ (labelsOf B ++ (labelsOf C ++ [hl]))) ∧
    ∀ l : String,
      (Exec.traceOf (execute ((A ++ B ++ C).map mkProceed) (mkHandler hl hf) c)).count l
        = c.trace.count l + (labelsOf A ++ (labelsOf B ++ (labelsOf C ++ [hl]))).count l := by
  obtain ⟨c', hc', ht⟩ := execute_proceeds (A ++ B ++ C) hl hf c
  rw [hc']
  refine ⟨rfl, ?_, ?_⟩
  · simp [Exec.traceOf, ht, labelsOf]
  · intro l
    simp [Exec.traceOf, ht, labelsOf, List.count_append]

/-- C2: if a middleware B aborts without proceeding, the chain execution
ends in the aborted state whose trace extends the entry trace by exactly
the labels of the middlewares before B and B itself — so no later
middleware and no terminal handler ever executes (the result does not
even depend on them) — and whose response is exactly what B wrote over
the response produced by the preceding middlewares' pre-work. -/
theorem abort_short_circuits
    (A : List LabelledMW) (b : String) (fb : Response → Response)
    (rest : List Middleware) (h : Handler) (c : Ctx) :
    execute (A.map mkProceed ++ mkAbort b fb :: rest) h c =
      .aborted { c with trace := c.trace ++ (labelsOf A ++ [b]),
                        response := fb (applyPres A c.response) } :=
  execute_abort A b fb rest h c

/-- C3: a faulting terminal handler, or a faulting middleware anywhere
in the chain, results in exactly one invocation of the recovery handler
(the demo's PanicHandler) carrying the failure's payload and a 500
response; recovery is total (runRecovered always returns a response, so
the failure never propagates past this boundary) and any other request
whose chain executes normally is answered with zero recovery
invocations. -/
theorem panic_recovered_exactly_once
    (A : List LabelledMW) (p : String) (c : Ctx) :
    runRecovered PanicHandler (A.map mkProceed) (mkFaultHandler p) c = (PanicHandler p, 1) ∧
    (∀ (rest : List Middleware) (h : Handler),
      runRecovered PanicHandler (A.map mkProceed ++ mkFaultMW p :: rest) h c
        = (PanicHandler p, 1)) ∧
    (PanicHandler p).status = 500 ∧
    (PanicHandler p).body = "Recovered from panic: " ++ p ∧
    (∀ (chain2 : List Middleware) (h2 : Handler) (c2 c' : Ctx),
      execute chain2 h2 c2 = .ok c' →
      runRecovered PanicHandler chain2 h2 c2 = (c'.response, 0)) := by
  refine ⟨?_, ?_, rfl, rfl, ?_⟩
  · simp [runRecovered, execute_fault_handler]
  · intro rest h
    simp [runRecovered, execute_fault_mw]
  · intro chain2 h2 c2 c' hok
    simp [runRecovered, hok]

/-- Witness for C3: the panicking demo route yields one PanicHandler
invocation and its 500 response; a subsequent plain request is served
normally with zero recovery invocations. -/
theorem panic_recovered_exactly_once_witness :
    runRecovered PanicHandler [] (mkFaultHandler "demo panic") {} = (PanicHandler "demo panic", 1) ∧
    runRecovered PanicHandler [] (mkHandler "Index" id) {} = (Response.empty, 0) :=
  ⟨(panic_recovered_exactly_once [] "demo panic" {}).1,
   (panic_recovered_exactly_once [] "demo panic" {}).2.2.2.2 [] (mkHandler "Index" id) {}
     ⟨{}, [], ["Index"]⟩ rfl⟩

lemma except_map_ok {ε β γ : Type} (e : Except ε β) (f : β → γ) (t : γ)
    (h : e.map f = .ok t) : ∃ x, e = .ok x ∧ t = f x := by
  cases e with
  | error a => simp [Except.map] at h
  | ok x => exact ⟨x, rfl, by simpa [Except.map] using h.symm⟩

lemma isConflict_map {β γ : Type} (e : Except ConflictError β) (f : β → γ) :
    isConflict (e.map f) = isConflict e := by
  cases e <;> rfl

lemma lookupA_updateA_self {β : Type} (l : List (String × β)) (k : String) (v : β) :
    lookupA (updateA l k v) k = some v := by
  induction l with
  | nil => simp [updateA, lookupA]
  | cons kv t ih =>
    obtain ⟨k', v'⟩ := kv
    by_cases hk : k' = k
    · simp [updateA, hk, lookupA]
    · simp [updateA, hk, lookupA, ih]

lemma insert_empty_noWild_matches {α : Type} (p : List Segment) (h : α) :
    ∀ (t : Node α) (path : List String), noWild p = true →
      insertNode Node.empty p h = .ok t → segCompat p path = true →
      matchNode t path = some (h, capturedParams p path) := by
  induction p with
  | nil =>
    intro t path _ hins hc
    cases path with
    | nil =>
      have ht : t = Node.mk [] none none (some h) := by
        simpa [insertNode, Node.empty] using hins.symm
      subst ht
      simp [matchNode, capturedParams, Node.handler]
    | cons x xs => simp [segCompat] at hc
  | cons seg p ih =>
    intro t path hw hins hc
    cases seg with
    | static s =>
      have hw' : noWild p = true := by simpa [noWild] using hw
      simp only [insertNode, Node.empty, Node.statics, Node.namedChild, Node.wild,
        Node.handler, lookupA, Option.getD, updateA] at hins
      obtain ⟨c, hcok, rfl⟩ := except_map_ok _ _ _ hins
      cases path with
      | nil => simp [segCompat] at hc
      | cons x xs =>
        simp only [segCompat] at hc
        by_cases hsx : s = x
        · subst hsx
          simp only [if_pos rfl] at hc
          simp only [matchNode, Node.statics, lookupA, if_pos rfl, capturedParams]
          exact ih c xs hw' hcok hc
        · simp [hsx] at hc
    | named a =>
      have hw' : noWild p = true := by simpa [noWild] using hw
      simp only [insertNode, Node.empty, Node.statics, Node.namedChild, Node.wild,
        Node.handler] at hins
      obtain ⟨c, hcok, rfl⟩ := except_map_ok _ _ _ hins
      cases path with
      | nil => simp [segCompat] at hc
      | cons x xs =>
        simp only [segCompat] at hc
        simp only [matchNode, Node.statics, lookupA, Node.namedChild, capturedParams]
        rw [ih c xs hw' hcok hc]
        rfl
    | wildcard w => simp [noWild] at hw

lemma insert_wildcard_matches {α : Type} (ss : List String) (w : String) (h : α) :
    ∀ (t : Node α) (rest : List String),
      insertNode Node.empty (ss.map Segment.static ++ [Segment.wildcard w]) h = .ok t →
      matchNode t (ss ++ rest) = some (h, [(w, joinSlash rest)]) := by
  induction ss with
  | nil =>
    intro t rest hins
    have ht : t = Node.mk [] none (some (w, h)) none := by
      simpa [insertNode, Node.empty, Node.wild, Node.statics, Node.namedChild,
        Node.handler] using hins.symm
    subst ht
    cases rest with
    | nil => simp [matchNode, Node.handler, Node.wild, joinSlash]
    | cons s r =>
      simp [matchNode, Node.statics, lookupA, Node.namedChild, Node.wild]
  | cons s ss ih =>
    intro t rest hins
    simp only [List.map_cons, List.cons_append, insertNode, Node.empty, Node.statics,
      Node.namedChild, Node.wild, Node.handler, lookupA, Option.getD, updateA] at hins
    obtain ⟨c, hcok, rfl⟩ := except_map_ok _ _ _ hins
    simp only [List.cons_append, matchNode, Node.statics, lookupA, if_pos rfl]
    exact ih c rest hcok

lemma match_static_first {α : Type} (n : Node α) (s : String) (rest : List String)
    (child : Node α) (h : lookupA n.statics s = some child) :
    matchNode n (s :: rest) = matchNode child rest := by
  simp [matchNode, h]

lemma match_named_second {α : Type} (n : Node α) (s : String) (rest : List String)
    (a : String) (child : Node α) (h1 : lookupA n.statics s = none)
    (h2 : n.namedChild = some (a, child)) :
    matchNode n (s :: rest) = (matchNode child rest).map fun r => (r.1, (a, s) :: r.2) := by
  simp [matchNode, h1, h2]

lemma match_wild_third {α : Type} (n : Node α) (s : String) (rest : List String)
    (w : String) (h : α) (h1 : lookupA n.statics s = none) (h2 : n.namedChild = none)
    (h3 : n.wild = some (w, h)) :
    matchNode n (s :: rest) = some (h, [(w, joinSlash (s :: rest))]) := by
  simp [matchNode, h1, h2, h3]

lemma insert_wild_nonterminal {α : Type} (pre : List Segment) (w : String) (x : Segment)
    (s : List Segment) (h : α) :
    ∀ t : Node α, isConflict (insertNode t (pre ++ Segment.wildcard w :: x :: s) h) = true := by
  induction pre with
  | nil =>
    intro t
    cases t
    rfl
  | cons seg pre ih =>
    intro t
    cases seg with
    | static s' =>
      simp only [List.cons_append, insertNode, isConflict_map]
      exact ih _
    | named a =>
      cases hnc : t.namedChild with
      | none =>
        simp only [List.cons_append, insertNode, hnc, isConflict_map]
        exact ih _
      | some bc =>
        obtain ⟨b, child⟩ := bc
        by_cases hab : a = b
        · simp only [List.cons_append, insertNode, hnc, if_pos hab, isConflict_map]
          exact ih _
        · simp [insertNode, hnc, hab, isConflict]
    | wildcard w' =>
      cases pre with
      | nil => cases t; rfl
      | cons p0 pre' => cases t; rfl

lemma insert_named_conflict {α : Type} (pre : List Segment) (a b : String)
    (s₁ s₂ : List Segment) (h₁ h₂ : α) (hab : a ≠ b) :
    ∀ (t t' : Node α), insertNode t (pre ++ Segment.named a :: s₁) h₁ = .ok t' →
      isConflict (insertNode t' (pre ++ Segment.named b :: s₂) h₂) = true := by
  induction pre with
  | nil =>
    intro t t' hins
    simp only [List.nil_append] at hins ⊢
    cases hnc : t.namedChild with
    | none =>
      simp only [insertNode, hnc] at hins
      obtain ⟨c, hcok, rfl⟩ := except_map_ok _ _ _ hins
      simp [insertNode, Node.namedChild, isConflict, Ne.symm hab]
    | some nbc =>
      obtain ⟨nb, child⟩ := nbc
      simp only [insertNode, hnc] at hins
      by_cases hanb : a = nb
      · simp only [if_pos hanb] at hins
        obtain ⟨c, hcok, rfl⟩ := except_map_ok _ _ _ hins
        subst hanb
        simp [insertNode, Node.namedChild, isConflict, Ne.symm hab]
      · simp [hanb] at hins
  | cons seg pre ih =>
    intro t t' hins
    cases seg with
    | static s =>
      simp only [List.cons_append, insertNode] at hins ⊢
      obtain ⟨c, hcok, rfl⟩ := except_map_ok _ _ _ hins
      rw [isConflict_map]
      have hl : lookupA (Node.mk (updateA t.statics s c) t.namedChild t.wild t.handler).statics s
          = some c := by
        simp [Node.statics, lookupA_updateA_self]
      rw [hl]
      exact ih _ _ hcok
    | named n =>
      simp only [List.cons_append, insertNode] at hins ⊢
      cases hnc : t.namedChild with
      | none =>
        rw [hnc] at hins
        obtain ⟨c, hcok, rfl⟩ := except_map_ok _ _ _ hins
        have hnc' : (Node.mk t.statics (some (n, c)) t.wild t.handler).namedChild
            = some (n, c) := rfl
        rw [hnc']
        dsimp only
        rw [if_pos rfl, isConflict_map]
        exact ih _ _ hcok
      | some nbc =>
        obtain ⟨nb, child⟩ := nbc
        rw [hnc] at hins
        dsimp only at hins
        by_cases hnnb : n = nb
        · rw [if_pos hnnb] at hins
          obtain ⟨c, hcok, rfl⟩ := except_map_ok _ _ _ hins
          have hnc' : (Node.mk t.statics (some (nb, c)) t.wild t.handler).namedChild
              = some (nb, c) := rfl
          rw [hnc']
          dsimp only
          rw [if_pos hnnb, isConflict_map]
          exact ih _ _ hcok
        · rw [if_neg hnnb] at hins
          exact absurd hins (by simp)
    | wildcard w' =>
      exfalso
      cases hp : pre with
      | nil =>
        subst hp
        have := insert_wild_nonterminal ([] : List Segment) w' (Segment.named a) s₁ h₁ t
        simp only [List.nil_append] at this
        simp only [List.singleton_append] at hins
        rw [hins] at this
        simp [isConflict] at this
      | cons p0 pre' =>
        subst hp
        have := insert_wild_nonterminal ([] : List Segment) w' p0
          (pre' ++ Segment.named a :: s₁) h₁ t
        simp only [List.nil_append] at this
        simp only [List.cons_append] at hins
        rw [hins] at this
        simp [isConflict] at this

/-- The demo's ProtectedContent handler (source part_000). -/
def ProtectedContent : Handle := fun _ _ =>
  { status := 200, headers := [], body := "Protected content accessed successfully!" }

/-- C4: a wildcard-free registered pattern matches exactly the paths of
the same segment count whose static segments agree literally, yielding
the handler with parameters equal to the literal path substrings at each
Named position; concretely, with the demo's routes, GET `/hello/john`
matches HelloWithName with params name="john" and GET `/hello/john/x` is
NotFound. -/
theorem static_named_patterns_match_literally :
    (∀ (p : List Segment) (h : String) (t : Node String) (path : List String),
      noWild p = true → insertNode Node.empty p h = .ok t → segCompat p path = true →
      matchNode t path = some (h, capturedParams p path)) ∧
    demoRouter.find "GET" (splitPath "/hello/john")
      = some ("HelloWithName", [("name", "john")]) ∧
    demoRouter.find "GET" (splitPath "/hello/john/x") = none := by
  refine ⟨?_, by decide, by decide⟩
  intro p h t path hw hins hc
  exact insert_empty_noWild_matches p h t path hw hins hc

/-- Witness for C4: the `/hello/:name` trie matches the two-segment path
`hello/john` with the captured name. -/
theorem static_named_patterns_witness :
    matchNode
      (Node.mk [("hello",
        Node.mk [] (some ("name", Node.mk [] none none (some "HelloWithName"))) none none)]
        none none none)
      ["hello", "john"]
      = some ("HelloWithName", [("name", "john")]) :=
  static_named_patterns_match_literally.1
    [Segment.static "hello", Segment.named "name"] "HelloWithName" _ ["hello", "john"]
    rfl rfl rfl

/-- C5: a pattern of static segments ending in a Wildcard matches every
path that extends its static prefix, with any number of additional
segments including zero, capturing the joined remainder; concretely GET
`/files/a/b/c` matches FileServer with filepath="a/b/c" and GET
`/files/` matches with filepath="". -/
theorem wildcard_matches_any_suffix :
    (∀ (ss : List String) (w : String) (h : String) (t : Node String) (rest : List String),
      insertNode Node.empty (ss.map Segment.static ++ [Segment.wildcard w]) h = .ok t →
      matchNode t (ss ++ rest) = some (h, [(w, joinSlash rest)])) ∧
    demoRouter.find "GET" (splitPath "/files/a/b/c")
      = some ("FileServer", [("filepath", "a/b/c")]) ∧
    demoRouter.find "GET" (splitPath "/files/") = some ("FileServer", [("filepath", "")]) := by
  refine ⟨?_, by decide, by decide⟩
  intro ss w h t rest hins
  exact insert_wildcard_matches ss w h t rest hins

/-- Witness for C5: the `/files/*filepath` trie matches the bare static
prefix (zero additional segments) with an empty capture. -/
theorem wildcard_matches_witness :
    matchNode
      (Node.mk [("files", Node.mk [] none (some ("filepath", "FileServer")) none)]
        none none none)
      ["files"]
      = some ("FileServer", [("filepath", "")]) :=
  wildcard_matches_any_suffix.1 ["files"] "filepath" "FileServer" _ [] rfl

/-- C6: at every trie node a static child is preferred over the Named
child, and the Named child over the Wildcard acceptor (matching commits
to the preferred child, so each request resolves deterministically);
concretely, with both `/books` and `/books/:isdn` registered, GET
`/books` invokes the static route's handler BookIndex. -/
theorem match_priority_static_named_wildcard :
    (∀ (n : Node String) (s : String) (rest : List String) (child : Node String),
      lookupA n.statics s = some child → matchNode n (s :: rest) = matchNode child rest) ∧
    (∀ (n : Node String) (s : String) (rest : List String) (a : String) (child : Node String),
      lookupA n.statics s = none → n.namedChild = some (a, child) →
      matchNode n (s :: rest) = (matchNode child rest).map fun r => (r.1, (a, s) :: r.2)) ∧
    (∀ (n : Node String) (s : String) (rest : List String) (w : String) (h : String),
      lookupA n.statics s = none → n.namedChild = none → n.wild = some (w, h) →
      matchNode n (s :: rest) = some (h, [(w, joinSlash (s :: rest))])) ∧
    demoRouter.find "GET" (splitPath "/books") = some ("BookIndex", []) := by
  refine ⟨?_, ?_, ?_, by decide⟩
  · intro n s rest child h
    exact match_static_first n s rest child h
  · intro n s rest a child h1 h2
    exact match_named_second n s rest a child h1 h2
  · intro n s rest w h h1 h2 h3
    exact match_wild_third n s rest w h h1 h2 h3

/-- Witness for C6: at a node holding both a static child `books` and a
named child `:isdn`, the segment `books` resolves through the static
child. -/
theorem match_priority_witness :
    matchNode
      (Node.mk [("books", Node.mk [] none none (some "BookIndex"))]
        (some ("isdn", Node.mk [] none none (some "BookShow"))) none none)
      ["books"]
      = matchNode (Node.mk [] none none (some "BookIndex")) [] :=
  match_priority_static_named_wildcard.1 _ "books" [] _ rfl

/-- C7: an OPTIONS request to a path with at least one registered route
is answered by the configured global OPTIONS handler without dispatching
to any route handler; with the preflight indicator header present the
response is 204 No Content carrying the CORS allow headers, and without
it the response is still 204 (not a 404). -/
theorem global_options_preflight (r : Router String) (g : HRequest → Response)
    (req : HRequest) (hm : req.method = "OPTIONS")
    (hr : hasAnyRoute r (splitPath req.path) = true) :
    dispatch r (some g) req = .globalOptions (g req) ∧
    (¬ headerGet req.headers "Access-Control-Request-Method" = "" →
      (GlobalOPTIONSHandler req).status = 204 ∧
      ("Access-Control-Allow-Methods", "GET, POST, PUT, DELETE, OPTIONS")
        ∈ (GlobalOPTIONSHandler req).headers ∧
      ("Access-Control-Allow-Origin", "*") ∈ (GlobalOPTIONSHandler req).headers ∧
      ("Access-Control-Allow-Headers", "Content-Type, Authorization")
        ∈ (GlobalOPTIONSHandler req).headers) ∧
    (headerGet req.headers "Access-Control-Request-Method" = "" →
      GlobalOPTIONSHandler req = { status := 204, headers := [], body := "" }) := by
  refine ⟨?_, ?_, ?_⟩
  · simp [dispatch, hm, hr]
  · intro hh
    simp [GlobalOPTIONSHandler, hh]
  · intro hh
    simp [GlobalOPTIONSHandler, hh]

/-- Witness for C7: a preflight OPTIONS request to the registered path
`/books` is answered by the global OPTIONS handler with 204 and the CORS
allow-methods header. -/
theorem global_options_preflight_witness :
    dispatch demoRouter (some GlobalOPTIONSHandler)
        ⟨"OPTIONS", "/books", [("Access-Control-Request-Method", "GET")]⟩
      = .globalOptions (GlobalOPTIONSHandler
          ⟨"OPTIONS", "/books", [("Access-Control-Request-Method", "GET")]⟩) ∧
    (GlobalOPTIONSHandler
        ⟨"OPTIONS", "/books", [("Access-Control-Request-Method", "GET")]⟩).status = 204 :=
  ⟨(global_options_preflight demoRouter GlobalOPTIONSHandler
      ⟨"OPTIONS", "/books", [("Access-Control-Request-Method", "GET")]⟩ rfl (by decide)).1,
   ((global_options_preflight demoRouter GlobalOPTIONSHandler
      ⟨"OPTIONS", "/books", [("Access-Control-Request-Method", "GET")]⟩ rfl (by decide)).2.1
      (by decide)).1⟩

/-- C9: the BasicAuth wrapper invokes the wrapped handler exactly when
the request presents credentials whose user and password both equal the
required values; otherwise the response is the fixed 401 Unauthorized
response carrying the `WWW-Authenticate: Basic realm=Restricted`
challenge, independent of the wrapped handler. -/
theorem basic_auth_gates (h : Handle) (ru rp : String) (r : ARequest)
    (ps : List (String × String)) :
    (authOk r ru rp → BasicAuth h ru rp r ps = h r ps) ∧
    (¬ authOk r ru rp → BasicAuth h ru rp r ps = basicAuthUnauthorized) ∧
    basicAuthUnauthorized.status = 401 ∧
    ("WWW-Authenticate", "Basic realm=Restricted") ∈ basicAuthUnauthorized.headers := by
  refine ⟨?_, ?_, rfl, by simp [basicAuthUnauthorized]⟩
  · rintro ⟨u, p, hba, rfl, rfl⟩
    simp [BasicAuth, hba]
  · intro hno
    cases hba : r.basicAuth with
    | none => simp [BasicAuth, hba]
    | some up =>
      obtain ⟨u, p⟩ := up
      have hne : ¬ (u = ru ∧ p = rp) := fun hh => hno ⟨u, p, hba, hh.1, hh.2⟩
      simp [BasicAuth, hba, hne]

/-- Witness for C9: the configured admin/secret credentials reach the
wrapped ProtectedContent handler; absent credentials yield the fixed 401
response. -/
theorem basic_auth_gates_witness :
    BasicAuth ProtectedContent "admin" "secret" ⟨some ("admin", "secret")⟩ []
      = ProtectedContent ⟨some ("admin", "secret")⟩ [] ∧
    BasicAuth ProtectedContent "admin" "secret" ⟨none⟩ [] = basicAuthUnauthorized :=
  ⟨(basic_auth_gates ProtectedContent "admin" "secret" ⟨some ("admin", "secret")⟩ []).1
      ⟨"admin", "secret", rfl, rfl, rfl⟩,
   (basic_auth_gates ProtectedContent "admin" "secret" ⟨none⟩ []).2.1
      (by simp [authOk])⟩

/-- C10: BookShow answers 404 with the fixed error body exactly when the
requested isdn is not a key of the bookstore map; in every case the map
is returned unchanged, and on a hit the response is 200 with the stored
book rendered under Content-Type application/json. -/
theorem book_show_contract (store : List (String × Book)) (isdn : String) :
    ((BookShow store isdn).1.status = 404 ∧ (BookShow store isdn).1.body = bookNotFoundBody
      ↔ lookupA store isdn = none) ∧
    (BookShow store isdn).2 = store ∧
    (∀ b, lookupA store isdn = some b →
      (BookShow store isdn).1
        = { status := 200, headers := [("Content-Type", "application/json")],
            body := renderBook b }) ∧
    (lookupA store isdn = none →
      (BookShow store isdn).1
        = { status := 404, headers := [("Content-Type", "application/json")],
            body := bookNotFoundBody }) := by
  cases hl : lookupA store isdn with
  | none => refine ⟨?_, ?_, ?_, ?_⟩ <;> simp [BookShow, hl]
  | some b => refine ⟨?_, ?_, ?_, ?_⟩ <;> simp [BookShow, hl]

/-- Witness for C10: the missing isdn 999 yields a 404 and the stored
isdn 123 yields the rendered book under the JSON content type. -/
theorem book_show_contract_witness :
    (BookShow bookstore "999").1.status = 404 ∧
    (BookShow bookstore "123").1
      = { status := 200, headers := [("Content-Type", "application/json")],
          body := renderBook ⟨"123", "Silence of the Lambs", "Thomas Harris", 367⟩ } :=
  ⟨((book_show_contract bookstore "999").1.mpr (by decide)).1,
   (book_show_contract bookstore "123").2.2.1
      ⟨"123", "Silence of the Lambs", "Thomas Harris", 367⟩ (by decide)⟩

/-- C8: a pattern whose Wildcard segment is not terminal always fails to
register with a ConflictError, on any trie; and after a pattern with a
Named parameter has been registered, registering another pattern for the
same method that reaches the same trie node with a different parameter
name always fails with a ConflictError. -/
theorem registration_conflicts_fail :
    (∀ (pre : List Segment) (w : String) (x : Segment) (s : List Segment) (h : String)
      (t : Node String),
      isConflict (insertNode t (pre ++ Segment.wildcard w :: x :: s) h) = true) ∧
    (∀ (pre : List Segment) (a b : String) (s₁ s₂ : List Segment) (h₁ h₂ : String)
      (t t' : Node String),
      a ≠ b → insertNode t (pre ++ Segment.named a :: s₁) h₁ = .ok t' →
      isConflict (insertNode t' (pre ++ Segment.named b :: s₂) h₂) = true) := by
  constructor
  · intro pre w x s h t
    exact insert_wild_nonterminal pre w x s h t
  · intro pre a b s₁ s₂ h₁ h₂ t t' hab hins
    exact insert_named_conflict pre a b s₁ s₂ h₁ h₂ hab t t' hins

/-- Witness for C8: after registering `/books/:isdn`, registering
`/books/:id` conflicts. -/
theorem registration_conflicts_witness :
    isConflict (insertNode
      (Node.mk [("books",
        Node.mk [] (some ("isdn", Node.mk [] none none (some "BookShow"))) none none)]
        none none none)
      [Segment.static "books", Segment.named "id"] "Other") = true :=
  registration_conflicts_fail.2 [Segment.static "books"] "isdn" "id" [] [] "BookShow" "Other"
    Node.empty _ (by decide) rfl

end GoCommunity
